import Mathlib

/-!
Shallow embedding of the two Python modules of this repository:

* `src/CustomAPI/custom_api.py` — the `CustomAPIStreamReader` streaming
  connector: offset tracking (`latestOffset`), checkpoint load/save
  (`_load_progress` / `_save_progress` / `commit`), partition planning
  (`partitions`) and row fetching (`read`).
* `src/databricks-api/api_handler.py` — the `RepoHandler` REST client:
  `get_repo` and `clone`.

Pure data flow is embedded as Lean functions; HTTP traffic is modelled by
request/response records (the embedding describes the request a method
issues and the pure function from the decoded response to the method's
result).  Python exceptions are `Except`; Python `dict` collections are
association lists.  Strings manipulated character-wise (repo paths) are
`List Char`.
-/

namespace CustomAPI

/-- A value stored in the `options` dictionary passed to the reader:
Python is dynamically typed, so an option can be a string or an integer. -/
inductive Value where
  | str (s : String)
  | int (n : Int)
  deriving DecidableEq, Repr

/-- The `options` dictionary: string keys to dynamic values. -/
def Options := List (String × Value)

/-- Python `options.get(key)` — first binding wins, `none` when absent
(Python `dict.get` with no default returns `None`). -/
def Options.get (o : Options) (key : String) : Option Value :=
  (o.find? (fun kv => kv.1 = key)).map (·.2)

/-- Python `options.get(key, default)`. -/
def Options.getD (o : Options) (key : String) (default : Value) : Value :=
  (o.get key).getD default

/-- Python `options.get(key, default)` where the caller uses the result as an
integer (`rows_per_batch`).  The embedding takes options well-typed: a
non-integer value is replaced by the default (in Python it would surface
only later, as a type error in arithmetic). -/
def Options.getIntD (o : Options) (key : String) (default : Int) : Int :=
  match o.get key with
  | some (.int n) => n
  | _ => default

/-- The decoded JSON body of the progress-store load response, reduced to
the only field `_load_progress` reads: `none` models a JSON object
without a `current` field, `some c` one with `current = c`. -/
abbrev ProgressBody := Option Int

/-- An HTTP response as seen by `_load_progress`: a status code and the
result of `response.json()` — `none` when the body is not JSON (in which
case `.json()` raises), `some b` when it decodes to an object. -/
structure HttpResponse where
  status : Nat
  json : Option ProgressBody
  deriving DecidableEq, Repr

/-- Errors a modelled Python snippet can raise. -/
inductive PyError where
  | nameError (name : String)
  | jsonDecodeError
  | valueError (msg : String)
  deriving DecidableEq, Repr

/-- Method `_load_progress` (custom_api.py lines 108–115): issues
`GET {progress_url}` with a bearer header, then returns
`response.json().get('current', 0)`.  The status code is never
inspected; only a non-JSON body can fail (inside `.json()`). -/
def load_progress (response : HttpResponse) : Except PyError Int :=
  match response.json with
  | none => .error .jsonDecodeError
  | some body => .ok (body.getD 0)

/-- The in-memory state of a (hypothetically constructed)
`CustomAPIStreamReader`: the cursor `self.current` and the configured
`self.rows_per_batch`. -/
structure ReaderState where
  current : Int
  rows_per_batch : Int
  deriving DecidableEq, Repr

/-- The cursor-loading wiring of construction (lines 96 and 100):
`self.rows_per_batch = options.get("rows_per_batch", 10)` and
`self._load_progress()` setting `self.current` from the store response.
This is the state a reader would hold if line 97's `NameError` (see
`init`) did not abort `__init__` first. -/
def loadReader (response : HttpResponse) (rows_per_batch : Int) :
    Except PyError ReaderState :=
  (load_progress response).map
    (fun c => { current := c, rows_per_batch := rows_per_batch })

/-- Method `latestOffset` (lines 128–133): `self.current += self.rows_per_batch;
return {"offset": self.current}`.  Returns the new state together with
the `offset` field of the returned dict. -/
def latestOffset (s : ReaderState) : ReaderState × Int :=
  let s' : ReaderState := { s with current := s.current + s.rows_per_batch }
  (s', s'.current)

/-- Method `initialOffset` (lines 102–106): `return {"offset": 0}`,
unconditionally. -/
def initialOffset (_s : ReaderState) : Int := 0

/-- The reader state after `n` consecutive `latestOffset` calls. -/
def runLatest (s : ReaderState) : Nat → ReaderState
  | 0 => s
  | n + 1 => (latestOffset (runLatest s n)).1

/-- The `offset` value returned by the `(n+1)`-st `latestOffset` call
(0-indexed: `nthOffset s 0` is the first call's return). -/
def nthOffset (s : ReaderState) (n : Nat) : Int :=
  (latestOffset (runLatest s n)).2

/-- An HTTP PUT request as built by `_save_progress`.  The body is the
JSON object `json.dumps` serialises, kept structured: a list of
field/value pairs. -/
structure PutRequest where
  url : String
  headers : List (String × String)
  body : List (String × Int)
  deriving DecidableEq, Repr

/-- Method `_save_progress` (lines 117–125): `PUT {progress_url}?overwrite=true`
with the bearer Authorization header and `Content-Type:
application/json`, body `json.dumps({"current": self.current})`.
(The draft reads the progress location from the never-assigned attribute
`self.url` and the never-imported module `json`; the embedding takes the
progress URL and token as parameters and serialisation as given.) -/
def save_progress (s : ReaderState) (progress_url token : String) : PutRequest :=
  { url := progress_url ++ "?overwrite=true"
    headers := [("Authorization", "Bearer " ++ token),
                ("Content-Type", "application/json")]
    body := [("current", s.current)] }

/-- Method `commit` (lines 145–151): ignores its `end` argument and calls
`self._save_progress()`. -/
def commit (s : ReaderState) (_endOffset : Int) (progress_url token : String) :
    PutRequest :=
  save_progress s progress_url token

/-- One lifecycle event of the reader, for tracing reachable states:
an `advance` is a `latestOffset` call, a `commitOp` is a `commit` call. -/
inductive Op where
  | advance
  | commitOp
  deriving DecidableEq, Repr

/-- The reader's in-memory state together with the `current` value held
by the remote progress store. -/
structure SysState where
  mem : ReaderState
  store : Int
  deriving DecidableEq, Repr

/-- Effect of one lifecycle event: `latestOffset` advances the in-memory
cursor only; `commit` PUTs `{"current": self.current}`, i.e. overwrites
the store with the in-memory cursor. -/
def stepOp : Op → SysState → SysState
  | .advance, s => { s with mem := (latestOffset s.mem).1 }
  | .commitOp, s => { s with store := s.mem.current }

/-- Run a sequence of lifecycle events. -/
def runOps (s : SysState) : List Op → SysState
  | [] => s
  | op :: ops => runOps (stepOp op s) ops

/-- Number of `advance` events since the last `commitOp` (the accumulator
`k` counts advances already pending before the list). -/
def uncommitted (k : Nat) : List Op → Nat
  | [] => k
  | Op.advance :: ops => uncommitted (k + 1) ops
  | Op.commitOp :: ops => uncommitted 0 ops

/-- State right after construction loads `current = c0` from the store:
the in-memory cursor and the store agree, nothing is uncommitted. -/
def initSys (c0 rpb : Int) : SysState :=
  { mem := { current := c0, rows_per_batch := rpb }, store := c0 }

/-- The `{"offset": n}` dict the host passes to `partitions`. -/
structure OffsetDict where
  offset : Int
  deriving DecidableEq, Repr

/-- Class `RangePartition(start, end)` — the partition object built at line
143; `stop` embeds the Python attribute `end`. -/
structure RangePartition where
  start : Int
  stop : Int
  deriving DecidableEq, Repr

/-- Method `partitions` (lines 135–143):
`return [RangePartition(start["offset"], end["offset"])]`. -/
def partitions (startDict endDict : OffsetDict) : List RangePartition :=
  [{ start := startDict.offset, stop := endDict.offset }]

/-- An HTTP GET request with integer query parameters, as issued by
`read`. -/
structure GetRequest where
  url : String
  params : List (String × Int)
  deriving DecidableEq, Repr

/-- One element of the row-fetch JSON array response, reduced to the four
fields `read` projects out. -/
structure RowJson where
  id : Int
  name : String
  email : String
  body : String
  deriving DecidableEq, Repr

/-- The single GET `read` issues (lines 158–163):
`requests.get(self.api_url, params={"_start": start, "_limit":
self.rows_per_batch})` with `start = partition.start`.  (The draft reads
the fetch location from the never-assigned attribute `self.api_url`; the
embedding takes it as a parameter.) -/
def readRequest (s : ReaderState) (api_url : String) (p : RangePartition) :
    GetRequest :=
  { url := api_url, params := [("_start", p.start), ("_limit", s.rows_per_batch)] }

/-- The tuples `read` yields from a decoded response (lines 164–176):
`for r in response.json(): yield (r['id'], r['name'], r['email'],
r['body'])` — one 4-tuple per array element, in order. -/
def readRows (rows : List RowJson) : List (Int × String × String × String) :=
  rows.map (fun r => (r.id, r.name, r.email, r.body))

/-- Method `read` (lines 153–176) as request list plus yielded tuples: exactly
one GET is issued, then the response array is mapped in order. -/
def read (s : ReaderState) (api_url : String) (p : RangePartition)
    (rows : List RowJson) :
    List GetRequest × List (Int × String × String × String) :=
  ([readRequest s api_url p], readRows rows)

/-- The local names bound in `__init__`'s scope when line 97 runs: its
parameters.  (Lines 91–96 assign only attributes of `self`, no locals.) -/
def initLocalNames : List String :=
  ["self", "schema", "options", "protocol", "method"]

/-- The module-level names of custom_api.py visible from `__init__`: the
imports of lines 1–8 and the classes the module defines.  Neither
`host`, `path` nor `token` is among them. -/
def moduleGlobalNames : List String :=
  ["DataSource", "DataSourceStreamReader", "InputPartition", "StructType",
   "ABC", "abstractmethod", "Any", "Dict", "Iterator", "List", "Sequence",
   "Tuple", "Type", "Union", "TYPE_CHECKING", "requests", "datetime",
   "PySparkNotImplementedError", "CustomAPI", "CustomAPIReader",
   "CustomAPIWriter", "CustomAPIStreamWriter", "CustomAPIStreamReader"]

/-- Whether a bare name resolves inside `__init__` (locals, then module
globals; Python's builtins hold none of the names of interest here). -/
def boundInInit (n : String) : Bool :=
  initLocalNames.contains n || moduleGlobalNames.contains n

/-- Python name resolution: an unbound bare name raises `NameError`. -/
def resolveName (n : String) : Except PyError Unit :=
  if boundInInit n then .ok () else .error (.nameError n)

/-- Method `__init__` (lines 81–100).  Lines 91–96 set attributes from `options`
and cannot fail; line 97 evaluates the f-string
`f"{protocol}://{host}/{path}"` operand by operand, left to right; line
98 evaluates `token`; line 100 would then call `_load_progress`.  The
success value is the state the wiring would produce. -/
def init (options : Options) (store_response : HttpResponse) :
    Except PyError ReaderState := do
  let rows_per_batch : Int := options.getIntD "rows_per_batch" 10
  let _ ← resolveName "protocol"
  let _ ← resolveName "host"
  let _ ← resolveName "path"
  let _ ← resolveName "token"
  loadReader store_response rows_per_batch

end CustomAPI

namespace DatabricksApi

/-- A Python `dict` with string keys and values (repo details, JSON
objects), as an insertion-ordered association list. -/
abbrev Dict := List (String × String)

/-- Assignment `d[k] = v`: overwrite in place when the key exists, else append. -/
def dictSet (d : Dict) (k : String) (v : String) : Dict :=
  if d.any (fun kv => kv.1 = k) then
    d.map (fun kv => if kv.1 = k then (k, v) else kv)
  else
    d ++ [(k, v)]

/-- Python `d.update(other)`: set every key of `other` in `d`, in order. -/
def dictUpdate (d other : Dict) : Dict :=
  other.foldl (fun acc kv => dictSet acc kv.1 kv.2) d

/-- One repo object from the `repos` field of the API response. -/
abbrev Repo := Dict

/-- Method `RepoHandler.get_repo` (api_handler.py lines 96–107), as a function
of the decoded GET response (`none` models a JSON body without a `repos`
key, whose subscript raises the `KeyError` the code converts) and of the
handler's current `self.details`; returns the updated details. -/
def get_repo (resp : Option (List Repo)) (details : Dict) :
    Except CustomAPI.PyError Dict :=
  match resp with
  | none =>
      .error (.valueError "Repo not found, please expand your search criteria.")
  | some repos =>
      if repos.length = 1 then
        .ok (dictUpdate details (repos.headD []))
      else
        .error (.valueError
          (toString repos.length ++ " repos found, please narrow your search criteria."))

/-- Python `str.split(sep)` for a one-character separator: splits on
every occurrence, keeping empty pieces, and maps `""` to `[""]`. -/
def pySplit (c : Char) : List Char → List (List Char)
  | [] => [[]]
  | a :: rest =>
      if a = c then
        [] :: pySplit c rest
      else
        match pySplit c rest with
        | [] => [[a]]
        | t :: ts => (a :: t) :: ts

/-- The inverse of splitting: interleave the separator back. -/
def joinSep (c : Char) : List (List Char) → List Char
  | [] => []
  | [w] => w
  | w :: ws => w ++ c :: joinSep c ws

/-- The characters of the literal `'Repos'`. -/
def reposChars : List Char := ['R', 'e', 'p', 'o', 's']

/-- The path validation of `RepoHandler.clone` (lines 120–128):
`path.split('/')` must either have exactly 4 elements starting with
`['', 'Repos']` (path kept as is) or exactly 2 all-nonempty elements
(path prefixed with `/Repos/`); otherwise a `ValueError`. -/
def clone_path_clean (path : List Char) : Except CustomAPI.PyError (List Char) :=
  let path_elements := pySplit '/' path
  if path_elements.length = 4 ∧ path_elements.take 2 = [[], reposChars] then
    .ok path
  else if path_elements.length = 2 ∧ path_elements.all (fun e => e.length ≠ 0) then
    .ok (('/' :: reposChars ++ ['/']) ++ path)
  else
    .error (.valueError
      "Supplied path should be in the form: (/Repos/)<folder-name>/<repo-name>")

/-- The creation request `clone` POSTs (lines 129–134) once the path is
validated. -/
structure CloneRequest where
  path : List Char
  provider : String
  url : String
  deriving DecidableEq, Repr

/-- Method `RepoHandler.clone` (lines 120–135): validate the path, then issue
the creation POST with the cleaned path. -/
def clone (path : List Char) (provider url : String) :
    Except CustomAPI.PyError CloneRequest :=
  (clone_path_clean path).map
    (fun pc => { path := pc, provider := provider, url := url })

/-- A word containing no path separator. -/
abbrev noSlash (w : List Char) : Prop := ∀ a ∈ w, a ≠ '/'

/-- The path shapes named by the claim, read from the spec's words: an
absolute `/Repos/<folder>/<repo>` or a relative `<folder>/<repo>`, both
components non-empty (and, being path components, slash-free). -/
def specClaimedForm (path : List Char) : Prop :=
  (∃ f r, f ≠ [] ∧ r ≠ [] ∧ noSlash f ∧ noSlash r ∧
      path = '/' :: reposChars ++ '/' :: (f ++ '/' :: r)) ∨
  (∃ f r, f ≠ [] ∧ r ≠ [] ∧ noSlash f ∧ noSlash r ∧ path = f ++ '/' :: r)

/-- The path shapes the code actually accepts: as `specClaimedForm`, but
the absolute form allows empty components. -/
def codeAcceptedForm (path : List Char) : Prop :=
  (∃ f r, noSlash f ∧ noSlash r ∧
      path = '/' :: reposChars ++ '/' :: (f ++ '/' :: r)) ∨
  (∃ f r, f ≠ [] ∧ r ≠ [] ∧ noSlash f ∧ noSlash r ∧ path = f ++ '/' :: r)

end DatabricksApi

namespace CustomAPI

theorem runLatest_rows (s : ReaderState) (n : Nat) :
    (runLatest s n).rows_per_batch = s.rows_per_batch := by
  induction n with
  | zero => rfl
  | succ n ih => simpa [runLatest, latestOffset] using ih

theorem runLatest_current (s : ReaderState) (n : Nat) :
    (runLatest s n).current = s.current + n * s.rows_per_batch := by
  induction n with
  | zero => simp [runLatest]
  | succ n ih =>
      simp [runLatest, latestOffset, ih, runLatest_rows]
      ring

theorem nthOffset_eq (s : ReaderState) (n : Nat) :
    nthOffset s n = s.current + (n + 1) * s.rows_per_batch := by
  simp [nthOffset, latestOffset, runLatest_current, runLatest_rows]
  ring

theorem runOps_invariant (rpb : Int) (ops : List Op) :
    ∀ (s : SysState) (k : Nat), s.mem.rows_per_batch = rpb →
      s.mem.current = s.store + (k : Int) * rpb →
      (runOps s ops).mem.current
        = (runOps s ops).store + (uncommitted k ops : Int) * rpb ∧
      (runOps s ops).mem.rows_per_batch = rpb := by
  induction ops with
  | nil => intro s k hb hc; exact ⟨by simpa [runOps, uncommitted] using hc, hb⟩
  | cons op ops ih =>
      intro s k hb hc
      cases op with
      | advance =>
          refine ih (stepOp .advance s) (k + 1) ?_ ?_
          · simpa [stepOp, latestOffset] using hb
          · simp [stepOp, latestOffset, hc, hb]
            ring
      | commitOp =>
          refine ih (stepOp .commitOp s) 0 ?_ ?_
          · simpa [stepOp] using hb
          · simp [stepOp]

end CustomAPI

/-- C1: Each `latestOffset` call advances the cursor by exactly
`rows_per_batch` and returns `{"offset": c + rows_per_batch}`; over any
sequence of calls the returned offsets grow monotonically in fixed steps
of `rows_per_batch` (strict growth under the natural assumption that the
configured batch size is positive; nothing in the model consults any
source content). -/
theorem C1_latestOffset_fixed_step (s : CustomAPI.ReaderState)
    (hpos : 0 < s.rows_per_batch) :
    ((CustomAPI.latestOffset s).1.current = s.current + s.rows_per_batch ∧
      (CustomAPI.latestOffset s).2 = s.current + s.rows_per_batch) ∧
    (∀ n : Nat, CustomAPI.nthOffset s n
        = s.current + (n + 1) * s.rows_per_batch) ∧
    (∀ n : Nat, CustomAPI.nthOffset s (n + 1) - CustomAPI.nthOffset s n
        = s.rows_per_batch) ∧
    (∀ m n : Nat, m < n →
        CustomAPI.nthOffset s m < CustomAPI.nthOffset s n) := by
  refine ⟨⟨rfl, rfl⟩, fun n => CustomAPI.nthOffset_eq s n, ?_, ?_⟩
  · intro n
    simp [CustomAPI.nthOffset_eq]
    ring
  · intro m n hmn
    simp only [CustomAPI.nthOffset_eq]
    have h1 : ((m : Int) + 1) * s.rows_per_batch
        < ((n : Int) + 1) * s.rows_per_batch := by
      apply mul_lt_mul_of_pos_right _ hpos
      exact_mod_cast Nat.succ_lt_succ hmn
    omega

/-- Witness for C1 at the concrete state `current = 42`,
`rows_per_batch = 10`. -/
theorem C1_witness :
    (0 : Int) < 10 ∧
    CustomAPI.nthOffset ⟨42, 10⟩ 0 = 52 ∧ CustomAPI.nthOffset ⟨42, 10⟩ 2 = 72 := by
  refine ⟨by decide, ?_, ?_⟩
  · have h := (C1_latestOffset_fixed_step ⟨42, 10⟩ (by decide)).2.1 0
    simpa using h
  · have h := (C1_latestOffset_fixed_step ⟨42, 10⟩ (by decide)).2.1 2
    simpa using h

/-- C2: In every reachable state — construction loading `c0`, then
any interleaving of `latestOffset` advances and `commit` calls — the
in-memory cursor equals the last durably committed `current` (the store's
value) plus the sum of the uncommitted advances' batch sizes, i.e.
`uncommitted count × rows_per_batch`; hence (for a non-negative batch
size) the persisted checkpoint never exceeds the in-memory cursor:
at-least-once, not exactly-once, redelivery after a crash between advance
and commit. -/
theorem C2_cursor_invariant (c0 rpb : Int) (ops : List CustomAPI.Op)
    (hnn : 0 ≤ rpb) :
    (CustomAPI.runOps (CustomAPI.initSys c0 rpb) ops).mem.current
      = (CustomAPI.runOps (CustomAPI.initSys c0 rpb) ops).store
        + (CustomAPI.uncommitted 0 ops : Int) * rpb ∧
    (CustomAPI.runOps (CustomAPI.initSys c0 rpb) ops).store
      ≤ (CustomAPI.runOps (CustomAPI.initSys c0 rpb) ops).mem.current := by
  have h := CustomAPI.runOps_invariant rpb ops (CustomAPI.initSys c0 rpb) 0
    (by simp [CustomAPI.initSys]) (by simp [CustomAPI.initSys])
  refine ⟨h.1, ?_⟩
  have hk : (0 : Int) ≤ (CustomAPI.uncommitted 0 ops : Int) * rpb :=
    mul_nonneg (Int.natCast_nonneg _) hnn
  omega

/-- Witness for C2: start at `current = 5`, batch size `10`, run
advance, advance, commit, advance. -/
theorem C2_witness :
    (0 : Int) ≤ 10 ∧
    ((CustomAPI.runOps (CustomAPI.initSys 5 10)
        [.advance, .advance, .commitOp, .advance]).mem.current
      = (CustomAPI.runOps (CustomAPI.initSys 5 10)
          [.advance, .advance, .commitOp, .advance]).store
        + (CustomAPI.uncommitted 0
            [.advance, .advance, .commitOp, .advance] : Int) * 10 ∧
     (CustomAPI.runOps (CustomAPI.initSys 5 10)
        [.advance, .advance, .commitOp, .advance]).store
      ≤ (CustomAPI.runOps (CustomAPI.initSys 5 10)
          [.advance, .advance, .commitOp, .advance]).mem.current) :=
  ⟨by decide, C2_cursor_invariant 5 10 [.advance, .advance, .commitOp, .advance]
    (by decide)⟩

/-- C3: `commit(end)` persists exactly the in-memory cursor: it
equals `_save_progress`, whose request is a PUT to
`{progress_url}?overwrite=true` with the bearer Authorization header,
`Content-Type: application/json`, and body `{"current": c}` for the
cursor `c`, for every state and every `end` argument. -/
theorem C3_commit_persists_cursor (s : CustomAPI.ReaderState)
    (endOffset : Int) (progress_url token : String) :
    CustomAPI.commit s endOffset progress_url token
      = CustomAPI.save_progress s progress_url token ∧
    (CustomAPI.commit s endOffset progress_url token).url
      = progress_url ++ "?overwrite=true" ∧
    (CustomAPI.commit s endOffset progress_url token).headers
      = [("Authorization", "Bearer " ++ token),
         ("Content-Type", "application/json")] ∧
    (CustomAPI.commit s endOffset progress_url token).body
      = [("current", s.current)] :=
  ⟨rfl, rfl, rfl, rfl⟩

/-- C4: When the load response carries `current = 42` and
`rows_per_batch` is 10, construction's wiring yields the state
`(42, 10)` and the first `latestOffset()` call returns
`{"offset": 52}`, not `{"offset": 10}`: the loaded cursor is the one
`latestOffset` advances. -/
theorem C4_loaded_cursor_is_advanced (rsp : CustomAPI.HttpResponse)
    (h : rsp.json = some (some 42)) :
    CustomAPI.loadReader rsp 10 = .ok ⟨42, 10⟩ ∧
    (CustomAPI.latestOffset ⟨42, 10⟩).2 = 52 ∧
    (CustomAPI.latestOffset ⟨42, 10⟩).2 ≠ 10 := by
  refine ⟨?_, rfl, by decide⟩
  simp [CustomAPI.loadReader, CustomAPI.load_progress, h, Except.map]

/-- Witness for C4 at the concrete response `200 {"current": 42}`. -/
theorem C4_witness :
    CustomAPI.HttpResponse.json ⟨200, some (some 42)⟩ = some (some 42) ∧
    CustomAPI.loadReader ⟨200, some (some 42)⟩ 10 = .ok ⟨42, 10⟩ :=
  ⟨rfl, (C4_loaded_cursor_is_advanced ⟨200, some (some 42)⟩ rfl).1⟩

/-- Counterexample for **C5**: a non-2xx load response does not make the
cursor default to 0 — the status is never inspected.  At status 500 with
body `{"current": 7}` the cursor loads as 7; and at status 500 with a
non-JSON body the load raises instead of defaulting. -/
theorem C5_counterexample :
    CustomAPI.load_progress ⟨500, some (some 7)⟩ = .ok 7 ∧
    (Except.ok 7 : Except CustomAPI.PyError Int) ≠ .ok 0 ∧
    CustomAPI.load_progress ⟨500, none⟩ = .error .jsonDecodeError := by
  refine ⟨rfl, fun hcontra => by simp at hcontra, rfl⟩

/-- C5 amended: At construction the cursor is initialized from the
load response's `current` field, defaulting to 0 exactly when that field
is absent; the HTTP status is ignored entirely, so a non-2xx response
neither fails the load nor forces 0 — the body is read as usual, and the
only failure is a non-JSON body. -/
theorem C5_amended_load_ignores_status (rsp : CustomAPI.HttpResponse) :
    CustomAPI.load_progress rsp = CustomAPI.load_progress ⟨200, rsp.json⟩ ∧
    (rsp.json = some none → CustomAPI.load_progress rsp = .ok 0) ∧
    (∀ c : Int, rsp.json = some (some c) → CustomAPI.load_progress rsp = .ok c) ∧
    (rsp.json = none →
      CustomAPI.load_progress rsp = .error .jsonDecodeError) := by
  refine ⟨rfl, ?_, ?_, ?_⟩
  · intro h; simp [CustomAPI.load_progress, h]
  · intro c h; simp [CustomAPI.load_progress, h]
  · intro h; simp [CustomAPI.load_progress, h]

/-- Witness for the amended C5 at the concrete non-2xx response
`503` with a JSON body lacking `current`. -/
theorem C5_amended_witness :
    CustomAPI.HttpResponse.json ⟨503, some none⟩ = some none ∧
    CustomAPI.load_progress ⟨503, some none⟩ = .ok 0 :=
  ⟨rfl, (C5_amended_load_ignores_status ⟨503, some none⟩).2.1 rfl⟩

/-- C6: For every pair of offset dicts with
`start.offset ≤ end.offset`, `partitions` returns exactly one partition
whose bounds are `(start.offset, end.offset)`. -/
theorem C6_partitions_single_range (s e : CustomAPI.OffsetDict)
    (_h : s.offset ≤ e.offset) :
    CustomAPI.partitions s e = [{ start := s.offset, stop := e.offset }] ∧
    (CustomAPI.partitions s e).length = 1 :=
  ⟨rfl, rfl⟩

/-- Witness for C6 at the offsets 20 and 30. -/
theorem C6_witness :
    (20 : Int) ≤ 30 ∧
    CustomAPI.partitions ⟨20⟩ ⟨30⟩ = [{ start := 20, stop := 30 }] :=
  ⟨by decide, (C6_partitions_single_range ⟨20⟩ ⟨30⟩ (by decide)).1⟩

/-- C7: For a partition `(s, e)`, `read` issues exactly one GET
against the row-fetch URL with `_start = s` and `_limit =
rows_per_batch`, and yields one 4-tuple per element of the JSON array
response, in response order (the output is the order-preserving map of
the input, of the same length, elementwise the 4 projected fields). -/
theorem C7_read_one_get_in_order (st : CustomAPI.ReaderState)
    (api_url : String) (p : CustomAPI.RangePartition)
    (rows : List CustomAPI.RowJson) :
    (CustomAPI.read st api_url p rows).1 = [CustomAPI.readRequest st api_url p] ∧
    (CustomAPI.read st api_url p rows).1.length = 1 ∧
    CustomAPI.readRequest st api_url p
      = { url := api_url,
          params := [("_start", p.start), ("_limit", st.rows_per_batch)] } ∧
    (CustomAPI.read st api_url p rows).2
      = rows.map (fun r => (r.id, r.name, r.email, r.body)) ∧
    (CustomAPI.read st api_url p rows).2.length = rows.length ∧
    (∀ i : Fin rows.length,
      (CustomAPI.read st api_url p rows).2.get
          (Fin.cast (by simp [CustomAPI.read, CustomAPI.readRows]) i)
        = ((rows.get i).id, (rows.get i).name, (rows.get i).email,
            (rows.get i).body)) := by
  refine ⟨rfl, rfl, rfl, rfl, by simp [CustomAPI.read, CustomAPI.readRows], ?_⟩
  intro i
  simp [CustomAPI.read, CustomAPI.readRows, List.get_eq_getElem]

/-- C9: `get_repo` raises a descriptive ValueError whenever the
match count is 0 or ≥ 2 — including when the response has no `repos`
field at all — and the stored details are updated (to
`details.update(repos[0])`) exactly when one repo matches: every
successful result comes from a single-match response. -/
theorem C9_get_repo_match_count (resp : Option (List DatabricksApi.Repo))
    (details : DatabricksApi.Dict) :
    (resp = none →
      DatabricksApi.get_repo resp details
        = .error (.valueError "Repo not found, please expand your search criteria.")) ∧
    (∀ repos, resp = some repos → repos.length = 0 ∨ 2 ≤ repos.length →
      DatabricksApi.get_repo resp details
        = .error (.valueError
            (toString repos.length ++ " repos found, please narrow your search criteria."))) ∧
    (∀ repos, resp = some repos → repos.length = 1 →
      DatabricksApi.get_repo resp details
        = .ok (DatabricksApi.dictUpdate details (repos.headD []))) ∧
    (∀ d, DatabricksApi.get_repo resp details = .ok d →
      ∃ repos, resp = some repos ∧ repos.length = 1 ∧
        d = DatabricksApi.dictUpdate details (repos.headD [])) := by
  refine ⟨?_, ?_, ?_, ?_⟩
  · intro h; subst h; rfl
  · intro repos hr hlen
    subst hr
    have h1 : ¬ repos.length = 1 := by omega
    simp [DatabricksApi.get_repo, h1]
  · intro repos hr hlen
    subst hr
    simp [DatabricksApi.get_repo, hlen]
  · intro d hd
    cases resp with
    | none => simp [DatabricksApi.get_repo] at hd
    | some repos =>
        by_cases h1 : repos.length = 1
        · refine ⟨repos, rfl, h1, ?_⟩
          simp [DatabricksApi.get_repo, h1] at hd
          simp [List.headD_eq_head?]
          exact hd.symm
        · simp [DatabricksApi.get_repo, h1] at hd

/-- Witness for C9: a single-match response updates the details; a
response with no `repos` field raises. -/
theorem C9_witness :
    DatabricksApi.get_repo (some [[("id", "123")]]) []
      = .ok (DatabricksApi.dictUpdate [] ([[("id", "123")]].headD [])) ∧
    DatabricksApi.get_repo none []
      = .error (.valueError "Repo not found, please expand your search criteria.") :=
  ⟨(C9_get_repo_match_count (some [[("id", "123")]]) []).2.2.1
      [[("id", "123")]] rfl rfl,
   (C9_get_repo_match_count none []).1 rfl⟩

/-- C10: For every `options` dictionary (and any store response),
constructing `CustomAPIStreamReader` fails unconditionally with a
name-resolution error: line 97's f-string reads the unbound bare names
`host` and `path` (the options were stored on `self`, not as locals), so
`__init__` raises `NameError` at `host` before ever reaching line 98's
unbound `token` or `_load_progress`; no reader instance can be created. -/
theorem C10_init_unconditional_name_error (options : CustomAPI.Options)
    (rsp : CustomAPI.HttpResponse) :
    CustomAPI.init options rsp = .error (.nameError "host") ∧
    CustomAPI.boundInInit "protocol" = true ∧
    CustomAPI.boundInInit "host" = false ∧
    CustomAPI.boundInInit "path" = false ∧
    CustomAPI.boundInInit "token" = false :=
  ⟨rfl, rfl, rfl, rfl, rfl⟩

namespace DatabricksApi

theorem pySplit_ne_nil (c : Char) (s : List Char) : pySplit c s ≠ [] := by
  induction s with
  | nil => simp [pySplit]
  | cons a rest ih =>
      by_cases hac : a = c
      · simp [pySplit, hac]
      · simp only [pySplit, if_neg hac]
        cases hps : pySplit c rest with
        | nil => simp
        | cons t ts => simp

theorem pySplit_no_sep (c : Char) (w : List Char)
    (hw : ∀ a ∈ w, a ≠ c) : pySplit c w = [w] := by
  induction w with
  | nil => rfl
  | cons a rest ih =>
      have hac : a ≠ c := hw a (by simp)
      have hrest : ∀ x ∈ rest, x ≠ c := fun x hx => hw x (by simp [hx])
      simp only [pySplit, if_neg hac, ih hrest]

theorem pySplit_append (c : Char) (w rest : List Char)
    (hw : ∀ a ∈ w, a ≠ c) :
    pySplit c (w ++ c :: rest) = w :: pySplit c rest := by
  induction w with
  | nil => simp [pySplit]
  | cons a wtl ih =>
      have hac : a ≠ c := hw a (by simp)
      have hw2 : ∀ x ∈ wtl, x ≠ c := fun x hx => hw x (by simp [hx])
      simp only [List.cons_append, pySplit, if_neg hac, List.append_eq, ih hw2]

theorem pySplit_parts_no_sep (c : Char) (s : List Char) :
    ∀ p ∈ pySplit c s, ∀ a ∈ p, a ≠ c := by
  induction s with
  | nil =>
      intro p hp
      simp [pySplit] at hp
      subst hp; simp
  | cons x rest ih =>
      intro p hp
      by_cases hxc : x = c
      · simp only [pySplit, if_pos hxc] at hp
        rcases List.mem_cons.mp hp with h | h
        · subst h; simp
        · exact ih p h
      · simp only [pySplit, if_neg hxc] at hp
        cases hps : pySplit c rest with
        | nil => exact absurd hps (pySplit_ne_nil c rest)
        | cons t ts =>
            rw [hps] at hp
            simp only [] at hp
            rcases List.mem_cons.mp hp with h | h
            · subst h
              intro a ha
              rcases List.mem_cons.mp ha with h1 | h1
              · subst h1; exact hxc
              · exact ih t (by rw [hps]; simp) a h1
            · exact ih p (by rw [hps]; simp [h])

theorem joinSep_pySplit (c : Char) (s : List Char) :
    joinSep c (pySplit c s) = s := by
  induction s with
  | nil => rfl
  | cons a rest ih =>
      by_cases hac : a = c
      · subst hac
        simp only [pySplit, if_pos rfl]
        cases hps : pySplit a rest with
        | nil => exact absurd hps (pySplit_ne_nil a rest)
        | cons t ts =>
            rw [hps] at ih
            simp [joinSep, ih]
      · simp only [pySplit, if_neg hac]
        cases hps : pySplit c rest with
        | nil => exact absurd hps (pySplit_ne_nil c rest)
        | cons t ts =>
            rw [hps] at ih
            cases ts with
            | nil =>
                simp only [joinSep] at ih ⊢
                simp [ih]
            | cons t2 ts2 =>
                simp only [joinSep] at ih ⊢
                simp [ih]

theorem reposChars_no_sep : ∀ a ∈ reposChars, a ≠ '/' := by decide

theorem pySplit_abs_form (f r : List Char) (hf : noSlash f) (hr : noSlash r) :
    pySplit '/' ('/' :: reposChars ++ '/' :: (f ++ '/' :: r))
      = [[], reposChars, f, r] := by
  have h0 : ('/' : Char) :: reposChars ++ '/' :: (f ++ '/' :: r)
      = ([] : List Char) ++ '/' :: (reposChars ++ '/' :: (f ++ '/' :: r)) := by
    simp
  rw [h0, pySplit_append '/' [] _ (by simp),
      pySplit_append '/' reposChars _ reposChars_no_sep,
      pySplit_append '/' f _ hf, pySplit_no_sep '/' r hr]

theorem pySplit_rel_form (f r : List Char) (hf : noSlash f) (hr : noSlash r) :
    pySplit '/' (f ++ '/' :: r) = [f, r] := by
  rw [pySplit_append '/' f _ hf, pySplit_no_sep '/' r hr]

end DatabricksApi

namespace DatabricksApi

theorem list_length_four {α : Type _} (l : List α) (h : l.length = 4) :
    ∃ a b c d, l = [a, b, c, d] := by
  rcases l with _ | ⟨a, l⟩
  · simp at h
  rcases l with _ | ⟨b, l⟩
  · simp at h
  rcases l with _ | ⟨c, l⟩
  · simp at h
  rcases l with _ | ⟨d, l⟩
  · simp at h
  rcases l with _ | ⟨e, l⟩
  · exact ⟨a, b, c, d, rfl⟩
  · simp at h

theorem list_length_two {α : Type _} (l : List α) (h : l.length = 2) :
    ∃ a b, l = [a, b] := by
  rcases l with _ | ⟨a, l⟩
  · simp at h
  rcases l with _ | ⟨b, l⟩
  · simp at h
  rcases l with _ | ⟨c, l⟩
  · exact ⟨a, b, rfl⟩
  · simp at h

theorem noSlash_append_ne (f r rest : List Char) (hf : f ≠ [])
    (hnf : noSlash f) : f ++ '/' :: r ≠ '/' :: rest := by
  cases f with
  | nil => exact absurd rfl hf
  | cons a ftl =>
      intro h
      simp only [List.cons_append, List.cons.injEq] at h
      exact hnf a (by simp) h.1

theorem clone_path_clean_abs (f r : List Char) (hf : noSlash f)
    (hr : noSlash r) :
    clone_path_clean ('/' :: reposChars ++ '/' :: (f ++ '/' :: r))
      = .ok ('/' :: reposChars ++ '/' :: (f ++ '/' :: r)) := by
  simp only [clone_path_clean, pySplit_abs_form f r hf hr]
  simp

theorem clone_path_clean_rel (f r : List Char) (hfne : f ≠ [])
    (hrne : r ≠ []) (hf : noSlash f) (hr : noSlash r) :
    clone_path_clean (f ++ '/' :: r)
      = .ok ('/' :: reposChars ++ '/' :: (f ++ '/' :: r)) := by
  simp only [clone_path_clean, pySplit_rel_form f r hf hr]
  simp [hfne, hrne, List.length_eq_zero]

theorem clone_path_clean_ok_form (path pc : List Char)
    (h : clone_path_clean path = .ok pc) : codeAcceptedForm path := by
  have hjoin := joinSep_pySplit '/' path
  have hno := pySplit_parts_no_sep '/' path
  simp only [clone_path_clean] at h
  by_cases h4 : (pySplit '/' path).length = 4 ∧
      (pySplit '/' path).take 2 = [[], reposChars]
  · obtain ⟨p0, p1, p2, p3, hps⟩ := list_length_four _ h4.1
    have htake := h4.2
    rw [hps] at htake
    simp only [List.take, List.cons.injEq, and_true] at htake
    rw [hps] at hjoin
    simp only [joinSep, List.nil_append] at hjoin
    refine Or.inl ⟨p2, p3, ?_, ?_, ?_⟩
    · exact hno p2 (by rw [hps]; simp)
    · exact hno p3 (by rw [hps]; simp)
    · rw [← hjoin, htake.1, htake.2]
      simp
  · rw [if_neg h4] at h
    by_cases h2 : (pySplit '/' path).length = 2 ∧
        (pySplit '/' path).all (fun e => e.length ≠ 0)
    · obtain ⟨p0, p1, hps⟩ := list_length_two _ h2.1
      have hall := h2.2
      rw [hps] at hall
      simp only [List.all_cons, List.all_nil, Bool.and_true,
        Bool.and_eq_true, decide_eq_true_eq] at hall
      rw [hps] at hjoin
      simp only [joinSep] at hjoin
      refine Or.inr ⟨p0, p1, ?_, ?_, ?_, ?_, hjoin.symm⟩
      · exact fun hc => hall.1 (by simp [hc])
      · exact fun hc => hall.2 (by simp [hc])
      · exact hno p0 (by rw [hps]; simp)
      · exact hno p1 (by rw [hps]; simp)
    · rw [if_neg h2] at h
      exact absurd h (by simp)

theorem clone_path_clean_cases (path : List Char) :
    (∃ pc, clone_path_clean path = .ok pc) ∨
      clone_path_clean path = .error (.valueError
        "Supplied path should be in the form: (/Repos/)<folder-name>/<repo-name>") := by
  simp only [clone_path_clean]
  split
  · exact Or.inl ⟨_, rfl⟩
  · split
    · exact Or.inl ⟨_, rfl⟩
    · exact Or.inr rfl

end DatabricksApi

/-- Counterexample for **C8**: the path `/Repos//x` (written out as its
characters, `'/' :: reposChars ++ ['/', '/', 'x']`) is not of either
claimed form — its folder component is empty — yet `clone` does not
raise: the absolute branch only checks that the split has 4 components
starting `['', 'Repos']`, never that the components are non-empty, so
the creation request is issued. -/
theorem C8_counterexample :
    ¬ DatabricksApi.specClaimedForm
        ('/' :: DatabricksApi.reposChars ++ ['/', '/', 'x']) ∧
    DatabricksApi.clone ('/' :: DatabricksApi.reposChars ++ ['/', '/', 'x'])
        "gitHub" "https://example.com/r.git"
      = .ok { path := '/' :: DatabricksApi.reposChars ++ ['/', '/', 'x'],
              provider := "gitHub", url := "https://example.com/r.git" } := by
  constructor
  · intro hform
    rcases hform with ⟨f, r, hf, _hr, hnf, _hnr, heq⟩ |
      ⟨f, r, hf, _hr, hnf, _hnr, heq⟩
    · have h2 := List.append_cancel_left heq
      have h3 : (['/', 'x'] : List Char) = f ++ '/' :: r := by
        simpa using h2
      exact DatabricksApi.noSlash_append_ne f r ['x'] hf hnf h3.symm
    · exact DatabricksApi.noSlash_append_ne f r
        (DatabricksApi.reposChars ++ ['/', '/', 'x']) hf hnf heq.symm
  · rfl

/-- C8 amended: `clone` raises the descriptive ValueError exactly
for paths accepted by neither pattern, where the absolute pattern
`/Repos/<folder>/<repo>` allows empty (but slash-free) components while
the relative pattern `<folder>/<repo>` requires both components
non-empty; accepted paths proceed to the creation request, the relative
form prefixed with `/Repos/`. -/
theorem C8_amended_clone_path_rules (path : List Char) (provider url : String) :
    ((∃ req, DatabricksApi.clone path provider url = .ok req) ↔
      DatabricksApi.codeAcceptedForm path) ∧
    (DatabricksApi.clone path provider url
        = .error (.valueError
          "Supplied path should be in the form: (/Repos/)<folder-name>/<repo-name>")
      ↔ ¬ DatabricksApi.codeAcceptedForm path) ∧
    (∀ f r, DatabricksApi.noSlash f → DatabricksApi.noSlash r →
      DatabricksApi.clone ('/' :: DatabricksApi.reposChars ++ '/' :: (f ++ '/' :: r))
          provider url
        = .ok { path := '/' :: DatabricksApi.reposChars ++ '/' :: (f ++ '/' :: r),
                provider := provider, url := url }) ∧
    (∀ f r, f ≠ [] → r ≠ [] →
      DatabricksApi.noSlash f → DatabricksApi.noSlash r →
      DatabricksApi.clone (f ++ '/' :: r) provider url
        = .ok { path := '/' :: DatabricksApi.reposChars ++ '/' :: (f ++ '/' :: r),
                provider := provider, url := url }) := by
  have hforward : DatabricksApi.codeAcceptedForm path →
      ∃ pc, DatabricksApi.clone_path_clean path = .ok pc := by
    rintro (⟨f, r, hnf, hnr, heq⟩ | ⟨f, r, hfne, hrne, hnf, hnr, heq⟩) <;>
      subst heq
    · exact ⟨_, DatabricksApi.clone_path_clean_abs f r hnf hnr⟩
    · exact ⟨_, DatabricksApi.clone_path_clean_rel f r hfne hrne hnf hnr⟩
  have hclone_ok : ∀ pc, DatabricksApi.clone_path_clean path = .ok pc →
      DatabricksApi.clone path provider url
        = .ok { path := pc, provider := provider, url := url } := by
    intro pc h
    simp [DatabricksApi.clone, h, Except.map]
  have hclone_err : ∀ e, DatabricksApi.clone_path_clean path = .error e →
      DatabricksApi.clone path provider url = .error e := by
    intro e h
    simp [DatabricksApi.clone, h, Except.map]
  refine ⟨⟨?_, ?_⟩, ⟨?_, ?_⟩, ?_, ?_⟩
  · rintro ⟨req, hreq⟩
    cases hc : DatabricksApi.clone_path_clean path with
    | error e =>
        rw [hclone_err e hc] at hreq
        simp at hreq
    | ok pc => exact DatabricksApi.clone_path_clean_ok_form path pc hc
  · intro hform
    obtain ⟨pc, hok⟩ := hforward hform
    exact ⟨_, hclone_ok pc hok⟩
  · intro herr hform
    obtain ⟨pc, hok⟩ := hforward hform
    rw [hclone_ok pc hok] at herr
    simp at herr
  · intro hnform
    rcases DatabricksApi.clone_path_clean_cases path with ⟨pc, hok⟩ | herr
    · exact absurd (DatabricksApi.clone_path_clean_ok_form path pc hok) hnform
    · exact hclone_err _ herr
  · intro f r hnf hnr
    have habs := DatabricksApi.clone_path_clean_abs f r hnf hnr
    simp only [List.cons_append] at habs
    simp [DatabricksApi.clone, habs, Except.map]
  · intro f r hfne hrne hnf hnr
    have hrel := DatabricksApi.clone_path_clean_rel f r hfne hrne hnf hnr
    simp only [List.cons_append] at hrel
    simp [DatabricksApi.clone, hrel, Except.map]

/-- Witness for the amended C8: the relative path `a/b` is accepted and
prefixed with `/Repos/`. -/
theorem C8_amended_witness :
    DatabricksApi.clone (['a'] ++ '/' :: ['b']) "gitHub" "u"
      = .ok { path := '/' :: DatabricksApi.reposChars ++ '/' :: (['a'] ++ '/' :: ['b']),
              provider := "gitHub", url := "u" } :=
  (C8_amended_clone_path_rules (['a'] ++ '/' :: ['b']) "gitHub" "u").2.2.2
    ['a'] ['b'] (by decide) (by decide) (by decide) (by decide)

/-- Witness for C7 at the partition `(20, 30)` with batch size 10 and a
one-element response. -/
theorem C7_witness :
    (CustomAPI.read ⟨20, 10⟩ "https://api.example.com/rows" ⟨20, 30⟩
        [⟨1, "n", "e", "b"⟩]).1
      = [{ url := "https://api.example.com/rows",
           params := [("_start", 20), ("_limit", 10)] }] ∧
    (CustomAPI.read ⟨20, 10⟩ "https://api.example.com/rows" ⟨20, 30⟩
        [⟨1, "n", "e", "b"⟩]).2 = [(1, "n", "e", "b")] := by
  have h := C7_read_one_get_in_order ⟨20, 10⟩ "https://api.example.com/rows"
    ⟨20, 30⟩ [⟨1, "n", "e", "b"⟩]
  refine ⟨?_, by rw [h.2.2.2.1]; rfl⟩
  rw [h.1, h.2.2.1]
